import Mathlib

/-!
Verification of the `logbuffer` and `aeron` packages of aeron-go:
log-buffer mapping (`LogBuffers.Wrap`), resource release (`LogBuffers.Close`,
`Aeron.Close`), and the asynchronous add-publication/add-subscription loops.

Machine integers (`int64`, `uintptr`) are modelled as `Int`; Go truncating
division is `Int.tdiv`.  A Go `panic` is modelled as an explicit result
constructor, and a Go `nil` pointer as `Option.none`.
-/

set_option autoImplicit false

namespace logbuffer

/-- Modelled from the spec: `PartitionCount` (fixed, = 3), the number of term
buffers of a log file.  The constant itself is declared outside the provided
source excerpt. -/
def PartitionCount : Nat := 3

/-- Modelled from the spec: length of the log metadata region at the end of a
log file (4096 bytes, per the literal scenarios of the spec).  The constant is
declared outside the provided source excerpt. -/
def logMetaDataLength : Int := 4096

/-- Modelled from the spec: threshold above which the log file is mapped with
separate mappings per term (`1 <<< 30`, per the literal scenario of the spec).
The constant is declared outside the provided source excerpt. -/
def maxSingleMappingSize : Int := 1073741824

/-- Modelled from the spec: minimum legal term length (64 KiB). -/
def TermMinLength : Int := 65536

/-- Modelled from the spec: maximum legal term length (1 GiB). -/
def TermMaxLength : Int := 1073741824

/-- Index of the metadata buffer in the `buffers` array (`PartitionCount`). -/
def LogMetaDataSectionIndex : Nat := PartitionCount

/-- Fuel-bounded power-of-two test on `Nat` (64 bits of fuel suffice for any
`int64` value). -/
def isPow2Aux : Nat → Nat → Bool
  | 0, _ => false
  | _ + 1, 0 => false
  | _ + 1, 1 => true
  | fuel + 1, n => if n % 2 = 1 then false else isPow2Aux fuel (n / 2)

/-- Modelled from the spec: power-of-two test on an `int64` value, used by
`checkTermLength`.  The helper is declared outside the provided source
excerpt. -/
def isPowerOfTwo (n : Int) : Bool :=
  decide (0 < n) && isPow2Aux 64 n.toNat

/-- Modelled from the spec: `termLength = (logLength - logMetaDataLength) /
PartitionCount`, with Go truncating `int64` division.  The helper is declared
outside the provided source excerpt. -/
def computeTermLength (logLength : Int) : Int :=
  (logLength - logMetaDataLength).tdiv (PartitionCount : Int)

/-- Modelled from the spec: `checkTermLength` validates that the term length is
a power of two within the allowed bounds, panicking otherwise.  The helper is
declared outside the provided source excerpt; the panic is modelled as
`Except.error` with the failure message. -/
def checkTermLength (termLength : Int) : Except String Unit :=
  if termLength < TermMinLength then
    Except.error ("Term length less than min size")
  else if TermMaxLength < termLength then
    Except.error ("Term length greater than max size")
  else if isPowerOfTwo termLength then Except.ok ()
  else Except.error ("Term length not a power of two")

/-- Modelled from the spec: a `memmap.File` handle — a mapped region with a raw
base address; `closeErr` is the (environment-chosen) result of unmapping it
with `Close`. -/
structure MemMapFile where
  addr : Int
  closeErr : Option String
deriving Repr, DecidableEq

/-- One `memmap.MapExisting` invocation, recorded as `(offset, length)`.
`(0, 0)` maps the whole file. -/
structure MapCall where
  offset : Int
  length : Int
deriving Repr, DecidableEq

/-- Modelled from the spec: the OS environment seen by `Wrap` — the log file
size reported by `memmap.GetFileSize` and the outcome of each
`memmap.MapExisting (offset, length)` request. -/
structure MapEnv where
  fileSize : Int
  mapExisting : Int → Int → Except String MemMapFile

/-- Modelled from the spec: an `atomic.Buffer` view `(base pointer, capacity)`
over mapped memory.  The Go zero value is `(0, 0)` (nil pointer, zero
capacity). -/
structure AtomicBuffer where
  bufferPtr : Int
  capacity : Int
deriving Repr, DecidableEq

/-- Modelled from the spec: `atomic.Buffer.Wrap(ptr, length)` points the view
at the given memory. -/
def AtomicBuffer.Wrap (ptr : Int) (length : Int) : AtomicBuffer :=
  { bufferPtr := ptr, capacity := length }

/-- Modelled from the spec: the `LogBufferMetaData` flyweight records the
buffer it overlays and the wrap offset.  The flyweight is declared outside the
provided source excerpt. -/
structure LogBufferMetaData where
  buffer : AtomicBuffer
  offset : Int
deriving Repr, DecidableEq

/-- Modelled from the spec: `LogBufferMetaData.Wrap(buf, offset)`. -/
def LogBufferMetaData.Wrap (buf : AtomicBuffer) (offset : Int) : LogBufferMetaData :=
  { buffer := buf, offset := offset }

/-- `LogBuffers`: the mapped files (entries are `none` for Go `nil` slice
elements), the `PartitionCount + 1` buffers (terms plus metadata), and the
metadata flyweight. -/
structure LogBuffers where
  mmapFiles : List (Option MemMapFile)
  buffers : Fin (PartitionCount + 1) → AtomicBuffer
  meta : LogBufferMetaData

/-- `Buffer(index)` returns the buffer backing a term (or, at index
`PartitionCount`, the metadata buffer). -/
def LogBuffers.Buffer (lb : LogBuffers) (index : Fin (PartitionCount + 1)) : AtomicBuffer :=
  lb.buffers index

/-- `Meta()` returns the log buffer metadata flyweight. -/
def LogBuffers.Meta (lb : LogBuffers) : LogBufferMetaData :=
  lb.meta

/-- Result of `Wrap`: the constructed `LogBuffers` together with the list of
`MapExisting` calls performed, or a Go panic (with the calls performed before
the panic). -/
inductive WrapResult where
  | ok (lb : LogBuffers) (calls : List MapCall)
  | panic (msg : String) (calls : List MapCall)

/-- Go runtime message for dereferencing a nil pointer. -/
def nilDerefMsg : String := "runtime error: invalid memory address or nil pointer dereference"

/-- The buffers array built by the single-mapping branch of `Wrap`: term `i`
at `basePtr + i * termLength` with capacity `termLength`, and the metadata
buffer at `basePtr + logLength - logMetaDataLength` with capacity
`logMetaDataLength`. -/
def smallBuffers (basePtr logLength termLength : Int) :
    Fin (PartitionCount + 1) → AtomicBuffer :=
  fun i =>
    if (i : Nat) < PartitionCount then
      AtomicBuffer.Wrap (basePtr + ((i : Nat) : Int) * termLength) termLength
    else
      AtomicBuffer.Wrap (basePtr + (logLength - logMetaDataLength)) logMetaDataLength

/-- The `LogBuffers` value produced by the single-mapping branch of `Wrap`
when `MapExisting(fileName, 0, 0)` returned `f`. -/
def wrapSmallResult (env : MapEnv) (f : MemMapFile) : LogBuffers :=
  { mmapFiles := [some f]
    buffers := smallBuffers f.addr env.fileSize (computeTermLength env.fileSize)
    meta := LogBufferMetaData.Wrap
      (smallBuffers f.addr env.fileSize (computeTermLength env.fileSize)
        (Fin.last PartitionCount)) 0 }

/-- The `for i := 0; i < PartitionCount; i++` loop of the multi-mapping branch
of `Wrap`, iterating over the remaining indices.  Each iteration maps term `i`
at offset `i * termLength`, appends the handle to `mmapFiles`, and then reads
`mmapFiles[i+1].GetMemoryPtr()` to wrap `buffers[i]` — dereferencing a nil
entry (or indexing out of range) is a Go runtime panic. -/
def bigTermLoop (env : MapEnv) (termLength : Int) :
    List Nat → List (Option MemMapFile) → (Fin (PartitionCount + 1) → AtomicBuffer) →
    List MapCall →
    (List (Option MemMapFile) × (Fin (PartitionCount + 1) → AtomicBuffer) × List MapCall) ⊕
      (String × List MapCall)
  | [], files, bufs, calls => Sum.inl (files, bufs, calls)
  | i :: rest, files, bufs, calls =>
    match env.mapExisting ((i : Int) * termLength) termLength with
    | Except.error _ =>
      Sum.inr ("Failed to map the log buffer", calls ++ [⟨(i : Int) * termLength, termLength⟩])
    | Except.ok f =>
      match (files ++ [some f])[i + 1]? with
      | some (some g) =>
        bigTermLoop env termLength rest (files ++ [some f])
          (fun j => if (j : Nat) = i then AtomicBuffer.Wrap g.addr termLength else bufs j)
          (calls ++ [⟨(i : Int) * termLength, termLength⟩])
      | _ => Sum.inr (nilDerefMsg, calls ++ [⟨(i : Int) * termLength, termLength⟩])

/-- `Wrap(fileName)`: compute and validate the term length, then either map
the whole file at once (when `logLength < maxSingleMappingSize`) and carve the
term and metadata views out of it, or (otherwise) map the metadata section and
each term separately.  The multi-mapping branch reproduces the source exactly:
`mmapFiles` is created with `make(..., PartitionCount+1)` (all nil) and the
mapped handles are appended after those nil placeholders, so the subsequent
`mmapFiles[i+1]` / `mmapFiles[0]` reads hit the nil entries. -/
def Wrap (env : MapEnv) : WrapResult :=
  match checkTermLength (computeTermLength env.fileSize) with
  | Except.error e => WrapResult.panic e []
  | Except.ok _ =>
    if env.fileSize < maxSingleMappingSize then
      match env.mapExisting 0 0 with
      | Except.error e => WrapResult.panic e [⟨0, 0⟩]
      | Except.ok f => WrapResult.ok (wrapSmallResult env f) [⟨0, 0⟩]
    else
      match env.mapExisting (computeTermLength env.fileSize * (PartitionCount : Int))
          (env.fileSize - computeTermLength env.fileSize * (PartitionCount : Int)) with
      | Except.error _ =>
        WrapResult.panic ("Failed to map the log buffer")
          [⟨computeTermLength env.fileSize * (PartitionCount : Int),
            env.fileSize - computeTermLength env.fileSize * (PartitionCount : Int)⟩]
      | Except.ok mf =>
        match bigTermLoop env (computeTermLength env.fileSize) (List.range PartitionCount)
            (List.replicate (PartitionCount + 1) (none : Option MemMapFile) ++ [some mf])
            (fun _ => { bufferPtr := 0, capacity := 0 })
            [⟨computeTermLength env.fileSize * (PartitionCount : Int),
              env.fileSize - computeTermLength env.fileSize * (PartitionCount : Int)⟩] with
        | Sum.inr pc => WrapResult.panic pc.1 pc.2
        | Sum.inl st =>
          match st.1[0]? with
          | some (some g) =>
            WrapResult.ok
              { mmapFiles := st.1
                buffers := fun j =>
                  if (j : Nat) = LogMetaDataSectionIndex then
                    AtomicBuffer.Wrap g.addr logMetaDataLength
                  else st.2.1 j
                meta := LogBufferMetaData.Wrap (AtomicBuffer.Wrap g.addr logMetaDataLength) 0 }
              st.2.2
          | _ => WrapResult.panic nilDerefMsg st.2.2

/-- Result of `LogBuffers.Close`: the returned error, the updated `LogBuffers`
(`mmapFiles` reset to nil), and the files actually unmapped — or a Go panic. -/
inductive CloseResult where
  | normal (err : Option String) (lb : LogBuffers) (closed : List MemMapFile)
  | panic (msg : String)

/-- The `for _, mmap := range logBuffers.mmapFiles { err = mmap.Close() }`
loop: `err` is overwritten by every iteration; a nil entry panics. -/
def closeLoop :
    List (Option MemMapFile) → Option String → List MemMapFile →
    (Option String × List MemMapFile) ⊕ String
  | [], err, closed => Sum.inl (err, closed)
  | none :: _, _, _ => Sum.inr nilDerefMsg
  | some f :: rest, _, closed => closeLoop rest f.closeErr (closed ++ [f])

/-- `Close` tries to unmap all backing memory maps, overwriting `err` with
each unmap result, then sets `mmapFiles` to nil and returns the last `err`. -/
def LogBuffers.Close (lb : LogBuffers) : CloseResult :=
  match closeLoop lb.mmapFiles none [] with
  | Sum.inl r => CloseResult.normal r.1 { lb with mmapFiles := [] } r.2
  | Sum.inr msg => CloseResult.panic msg

end logbuffer

namespace aeron

/-- `Aeron.Close`:
`err := conductor.Close(); if err != nil { errorHandler(err) };
err = cncFile.Close(); if err != nil { errorHandler(err) }; return err`.
Modelled from the spec: the conductor's and the CnC file's close results are
environment inputs (their code is outside the provided source).  The model
returns the value returned by `Close` together with the errors passed to
`context.errorHandler`, in order. -/
def Close (conductorCloseErr cncCloseErr : Option String) : Option String × List String :=
  ( cncCloseErr
  , (match conductorCloseErr with | some e => [e] | none => []) ++
    (match cncCloseErr with | some e => [e] | none => []) )

/-- Outcome of the spin-poll goroutine body of `AddSubscription` /
`AddPublication` after at most `fuel` loop iterations: either the resolved
object was sent on the channel (with the number of `idleStrategy.Idle(0)`
calls made), or the goroutine is still polling. -/
inductive PollOutcome (α : Type) where
  | delivered (value : α) (idleCalls : Nat)
  | polling (idleCalls : Nat)
deriving Repr, DecidableEq

/-- The `for subscription == nil` loop body: poll `Find*` with the next poll
index; on nil, call the idle strategy and loop.  `fuel` bounds the number of
iterations modelled (the source loop itself is unbounded). -/
def addLoopGo {α : Type} (find : Nat → Option α) : Nat → Nat → Nat → PollOutcome α
  | 0, _, idles => PollOutcome.polling idles
  | fuel + 1, k, idles =>
    match find k with
    | some a => PollOutcome.delivered a idles
    | none => addLoopGo find fuel (k + 1) (idles + 1)

/-- The whole goroutine body: an initial `Find*` call (poll index 0), then the
`for == nil` loop.  Note the source performs the second poll immediately,
without idling between the first two polls. -/
def addLoop {α : Type} (find : Nat → Option α) (fuel : Nat) : PollOutcome α :=
  match find 0 with
  | some a => PollOutcome.delivered a 0
  | none => addLoopGo find fuel 1 0

/-- Modelled from the spec: the client conductor as seen by `AddSubscription`
and `AddPublication` (its code is outside the provided source).  `add*`
registers a pending entry and returns the registration id; `find*` is the
result of the `n`-th `Find*` poll for a registration id (`none` while still
pending). -/
structure ConductorModel (σ π : Type) where
  addSubscription : String → Int → Int
  findSubscription : Int → Nat → Option σ
  addPublication : String → Int → Int
  findPublication : Int → Nat → Option π

/-- `Aeron.AddSubscription`: register with the conductor (synchronously,
without waiting on the driver), return the registration id and the channel
content produced by the background spin-poll goroutine. -/
def Aeron.AddSubscription {σ π : Type} (c : ConductorModel σ π) (channel : String)
    (streamID : Int) (fuel : Nat) : Int × PollOutcome σ :=
  ( c.addSubscription channel streamID
  , addLoop (c.findSubscription (c.addSubscription channel streamID)) fuel )

/-- `Aeron.AddPublication`: same shape as `Aeron.AddSubscription`. -/
def Aeron.AddPublication {σ π : Type} (c : ConductorModel σ π) (channel : String)
    (streamID : Int) (fuel : Nat) : Int × PollOutcome π :=
  ( c.addPublication channel streamID
  , addLoop (c.findPublication (c.addPublication channel streamID)) fuel )

end aeron

namespace logbuffer

/-- A log file of length `3 * (1 <<< 30) + 4096` (at least
`maxSingleMappingSize`) on which every requested mapping succeeds, each at a
distinct base address. -/
def envC1 : MapEnv :=
  { fileSize := 3 * 1073741824 + 4096
    mapExisting := fun off _ => Except.ok { addr := 4096 + off, closeErr := none } }

/-- A `LogBuffers` with two mapped regions: unmapping the first fails with an
error, unmapping the second succeeds. -/
def lbC2 : LogBuffers :=
  { mmapFiles := [some { addr := 100, closeErr := some ("munmap region 0 failed") },
                  some { addr := 200, closeErr := none }]
    buffers := fun _ => { bufferPtr := 0, capacity := 0 }
    meta := { buffer := { bufferPtr := 0, capacity := 0 }, offset := 0 } }

/-- A log file of length `3 * 65536 + 4096 = 200704` on which mapping
succeeds at base address 8192. -/
def envC3w : MapEnv :=
  { fileSize := 200704
    mapExisting := fun _ _ => Except.ok { addr := 8192, closeErr := none } }

/-- The handle returned for `envC3w`. -/
def fC3w : MemMapFile := { addr := 8192, closeErr := none }

/-- A log file of length `200705 = 3 * 65536 + 4096 + 1`: one slack byte, so
`logLength ≠ PartitionCount * termLength + logMetaDataLength`. -/
def envC4x : MapEnv :=
  { fileSize := 200705
    mapExisting := fun _ _ => Except.ok { addr := 8192, closeErr := none } }

/-- A valid log file of length 200704 mapping at base 16384. -/
def envC4w : MapEnv :=
  { fileSize := 200704
    mapExisting := fun _ _ => Except.ok { addr := 16384, closeErr := none } }

/-- The handle returned for `envC4w`. -/
def fC4w : MemMapFile := { addr := 16384, closeErr := none }

/-- An empty log file: its computed term length is negative, so
`checkTermLength` rejects it. -/
def envC4bad : MapEnv :=
  { fileSize := 0
    mapExisting := fun _ _ => Except.ok { addr := 0, closeErr := none } }

/-- A `LogBuffers` holding one mapped region whose unmap fails. -/
def lbC6w : LogBuffers :=
  { mmapFiles := [some { addr := 4096, closeErr := some ("munmap failed") }]
    buffers := fun _ => { bufferPtr := 0, capacity := 0 }
    meta := { buffer := { bufferPtr := 0, capacity := 0 }, offset := 0 } }

/-- A log file on which every mapping request fails. -/
def envC7w : MapEnv :=
  { fileSize := 200704
    mapExisting := fun _ _ => Except.error ("open logbuffer file: no such file or directory") }

/-- A valid small log file mapping at base 32768. -/
def envC9w : MapEnv :=
  { fileSize := 200704
    mapExisting := fun _ _ => Except.ok { addr := 32768, closeErr := none } }

/-- The handle returned for `envC9w`. -/
def fC9w : MemMapFile := { addr := 32768, closeErr := none }

/-- A valid small log file mapping at base 65536. -/
def envC10w : MapEnv :=
  { fileSize := 200704
    mapExisting := fun _ _ => Except.ok { addr := 65536, closeErr := none } }

/-- The handle returned for `envC10w`. -/
def fC10w : MemMapFile := { addr := 65536, closeErr := none }

end logbuffer

namespace aeron

/-- A conductor whose registrations never resolve: every `Find*` poll returns
nil forever. -/
def neverC8 : ConductorModel Nat Nat :=
  { addSubscription := fun _ _ => 101
    findSubscription := fun _ _ => none
    addPublication := fun _ _ => 102
    findPublication := fun _ _ => none }

/-- A conductor whose subscription resolves on the third `Find*` poll (index
2) and whose publication resolves on the first poll (index 0). -/
def cC8w : ConductorModel Nat Nat :=
  { addSubscription := fun _ _ => 201
    findSubscription := fun _ k => if k = 2 then some 77 else none
    addPublication := fun _ _ => 202
    findPublication := fun _ k => if k = 0 then some 88 else none }

end aeron

namespace logbuffer

lemma checkTermLength_ok {t : Int} (h : checkTermLength t = Except.ok ()) :
    TermMinLength ≤ t ∧ t ≤ TermMaxLength ∧ isPowerOfTwo t = true := by
  unfold checkTermLength at h
  split_ifs at h with h1 h2 h3
  exact ⟨le_of_not_lt h1, le_of_not_lt h2, h3⟩

lemma wrap_check_error (env : MapEnv) (e : String)
    (hc : checkTermLength (computeTermLength env.fileSize) = Except.error e) :
    Wrap env = WrapResult.panic e [] := by
  unfold Wrap
  rw [hc]

lemma wrap_small (env : MapEnv) (f : MemMapFile)
    (h1 : env.fileSize < maxSingleMappingSize)
    (h2 : checkTermLength (computeTermLength env.fileSize) = Except.ok ())
    (h3 : env.mapExisting 0 0 = Except.ok f) :
    Wrap env = WrapResult.ok (wrapSmallResult env f) [⟨0, 0⟩] := by
  unfold Wrap
  rw [h2, if_pos h1, h3]

lemma wrap_small_maperr (env : MapEnv) (e : String)
    (h1 : env.fileSize < maxSingleMappingSize)
    (h2 : checkTermLength (computeTermLength env.fileSize) = Except.ok ())
    (h3 : env.mapExisting 0 0 = Except.error e) :
    Wrap env = WrapResult.panic e [⟨0, 0⟩] := by
  unfold Wrap
  rw [h2, if_pos h1, h3]

lemma bigTermLoop_head_inr (env : MapEnv) (t : Int) (mf : MemMapFile)
    (bufs : Fin (PartitionCount + 1) → AtomicBuffer) (calls : List MapCall) :
    ∃ pc, bigTermLoop env t (List.range PartitionCount)
      (List.replicate (PartitionCount + 1) (none : Option MemMapFile) ++ [some mf])
      bufs calls = Sum.inr pc := by
  show ∃ pc, bigTermLoop env t [0, 1, 2] [none, none, none, none, some mf] bufs calls = Sum.inr pc
  cases hm : env.mapExisting (((0 : Nat) : Int) * t) t with
  | error e =>
    refine ⟨("Failed to map the log buffer", calls ++ [⟨((0 : Nat) : Int) * t, t⟩]), ?_⟩
    simp only [bigTermLoop, hm]
  | ok f =>
    refine ⟨(nilDerefMsg, calls ++ [⟨((0 : Nat) : Int) * t, t⟩]), ?_⟩
    simp only [bigTermLoop, hm]
    rfl

lemma wrap_big_panic (env : MapEnv) (h : maxSingleMappingSize ≤ env.fileSize) :
    ∃ msg calls, Wrap env = WrapResult.panic msg calls := by
  cases hc : checkTermLength (computeTermLength env.fileSize) with
  | error e => exact ⟨e, [], wrap_check_error env e hc⟩
  | ok u =>
    cases u
    cases hmf : env.mapExisting (computeTermLength env.fileSize * (PartitionCount : Int))
        (env.fileSize - computeTermLength env.fileSize * (PartitionCount : Int)) with
    | error e =>
      refine ⟨("Failed to map the log buffer"),
        [⟨computeTermLength env.fileSize * (PartitionCount : Int),
          env.fileSize - computeTermLength env.fileSize * (PartitionCount : Int)⟩], ?_⟩
      unfold Wrap
      simp only [hc, if_neg (not_lt.mpr h), hmf]
    | ok mf =>
      obtain ⟨pc, hpc⟩ := bigTermLoop_head_inr env (computeTermLength env.fileSize) mf
        (fun _ => { bufferPtr := 0, capacity := 0 })
        [⟨computeTermLength env.fileSize * (PartitionCount : Int),
          env.fileSize - computeTermLength env.fileSize * (PartitionCount : Int)⟩]
      refine ⟨pc.1, pc.2, ?_⟩
      unfold Wrap
      simp only [hc, if_neg (not_lt.mpr h), hmf, hpc]

lemma wrap_ok_inversion (env : MapEnv) (lb : LogBuffers) (calls : List MapCall)
    (h : Wrap env = WrapResult.ok lb calls) :
    ∃ f, env.fileSize < maxSingleMappingSize ∧
      checkTermLength (computeTermLength env.fileSize) = Except.ok () ∧
      env.mapExisting 0 0 = Except.ok f ∧
      calls = [⟨0, 0⟩] ∧ lb = wrapSmallResult env f := by
  by_cases hs : env.fileSize < maxSingleMappingSize
  · cases hc : checkTermLength (computeTermLength env.fileSize) with
    | error e =>
      rw [wrap_check_error env e hc] at h
      exact WrapResult.noConfusion h
    | ok u =>
      cases u
      cases hm : env.mapExisting 0 0 with
      | error e =>
        rw [wrap_small_maperr env e hs hc hm] at h
        exact WrapResult.noConfusion h
      | ok f =>
        rw [wrap_small env f hs hc hm] at h
        injection h with h1 h2
        exact ⟨f, hs, rfl, rfl, h2.symm, h1.symm⟩
  · obtain ⟨msg, cs, hp⟩ := wrap_big_panic env (le_of_not_lt hs)
    rw [hp] at h
    exact WrapResult.noConfusion h

lemma closeLoop_all_some :
    ∀ (l : List (Option MemMapFile)) (e0 : Option String) (acc : List MemMapFile),
      (∀ x ∈ l, Option.isSome x = true) →
      ∃ r, closeLoop l e0 acc = Sum.inl r := by
  intro l
  induction l with
  | nil => exact fun e0 acc _ => ⟨(e0, acc), rfl⟩
  | cons x rest ih =>
    intro e0 acc h
    cases x with
    | none => simpa using h none (List.mem_cons_self _ _)
    | some f => exact ih f.closeErr (acc ++ [f]) (fun y hy => h y (List.mem_cons_of_mem _ hy))

end logbuffer

namespace aeron

lemma addLoopGo_none {α : Type} (find : Nat → Option α) (hf : ∀ k, find k = none) :
    ∀ fuel k idles, addLoopGo find fuel k idles = PollOutcome.polling (idles + fuel) := by
  intro fuel
  induction fuel with
  | zero => intro k idles; rfl
  | succ n ih =>
    intro k idles
    simp only [addLoopGo, hf]
    rw [ih (k + 1) (idles + 1)]
    congr 1
    omega

lemma addLoop_none {α : Type} (find : Nat → Option α) (hf : ∀ k, find k = none) (fuel : Nat) :
    addLoop find fuel = PollOutcome.polling fuel := by
  simp only [addLoop, hf]
  rw [addLoopGo_none find hf fuel 1 0]
  congr 1
  omega

lemma addLoopGo_spec {α : Type} (find : Nat → Option α) (n : Nat) (a : α)
    (ha : find n = some a) :
    ∀ fuel k idles, k ≤ n → n < k + fuel → (∀ j, k ≤ j → j < n → find j = none) →
    addLoopGo find fuel k idles = PollOutcome.delivered a (idles + (n - k)) := by
  intro fuel
  induction fuel with
  | zero =>
    intro k idles hk hlt _
    exact absurd hlt (by omega)
  | succ m ih =>
    intro k idles hk hlt hnone
    by_cases hkn : k = n
    · subst hkn
      simp only [addLoopGo, ha]
      simp
    · have hklt : k < n := lt_of_le_of_ne hk hkn
      have hfk : find k = none := hnone k le_rfl hklt
      simp only [addLoopGo, hfk]
      rw [ih (k + 1) (idles + 1) (by omega) (by omega) (fun j hj1 hj2 => hnone j (by omega) hj2)]
      congr 1
      omega

lemma addLoop_spec {α : Type} (find : Nat → Option α) (n : Nat) (a : α)
    (ha : find n = some a) (hb : ∀ j, j < n → find j = none)
    (fuel : Nat) (hf : n ≤ fuel) :
    addLoop find fuel = PollOutcome.delivered a (n - 1) := by
  cases n with
  | zero => simp [addLoop, ha]
  | succ m =>
    have h0 : find 0 = none := hb 0 (Nat.succ_pos m)
    simp only [addLoop, h0]
    rw [addLoopGo_spec find (m + 1) a ha fuel 1 0 (by omega) (by omega)
      (fun j hj1 hj2 => hb j hj2)]
    congr 1
    omega

end aeron

namespace logbuffer

/-- Claim C1: the claim states that for a log file of length at least
`maxSingleMappingSize`, `Wrap` performs `PartitionCount + 1` separate
mappings and wraps the buffers at distinct base pointers.  Evaluating the
code on such a file (length `3 * (1 <<< 30) + 4096`, every mapping
succeeding) shows it instead performs only two mappings — the metadata
section and term 0 — and then panics with a nil-pointer dereference, because
`mmapFiles` is created with `make(..., PartitionCount+1)` (nil entries) and
the handles are appended after the placeholders, so `mmapFiles[i+1]` reads a
nil entry. -/
theorem C1_multi_mapping_nil_deref :
    Wrap envC1 = WrapResult.panic nilDerefMsg
      [⟨3221225472, 4096⟩, ⟨0, 1073741824⟩] := rfl

/-- Claim C2: the claim states that `Close` attempts every unmap and returns
the first error.  Evaluating `Close` on a `LogBuffers` whose first region
fails to unmap and whose second succeeds shows that both regions are indeed
unmapped (the closed-files trace contains both), but the returned error is
`none` — the last unmap's result — not the first error. -/
theorem C2_close_returns_last_error :
    lbC2.Close = CloseResult.normal none { lbC2 with mmapFiles := [] }
      [⟨100, some ("munmap region 0 failed")⟩, ⟨200, none⟩] := rfl

/-- Claim C3: for every log file shorter than `maxSingleMappingSize` (with a
valid term length and a successful mapping), `Wrap` performs exactly one
mapping of the whole file (`MapExisting(fileName, 0, 0)`) and carves
`PartitionCount` term views of capacity `termLength` at contiguous offsets
`i * termLength`, plus one metadata view of capacity `logMetaDataLength` at
offset `logLength - logMetaDataLength`. -/
theorem C3_single_mapping_carves (env : MapEnv) (f : MemMapFile)
    (h1 : env.fileSize < maxSingleMappingSize)
    (h2 : checkTermLength (computeTermLength env.fileSize) = Except.ok ())
    (h3 : env.mapExisting 0 0 = Except.ok f) :
    ∃ lb, Wrap env = WrapResult.ok lb [⟨0, 0⟩] ∧
      (∀ i : Fin (PartitionCount + 1), (i : Nat) < PartitionCount →
        lb.Buffer i =
          AtomicBuffer.Wrap (f.addr + ((i : Nat) : Int) * computeTermLength env.fileSize)
            (computeTermLength env.fileSize)) ∧
      lb.Buffer (Fin.last PartitionCount) =
        AtomicBuffer.Wrap (f.addr + (env.fileSize - logMetaDataLength)) logMetaDataLength := by
  refine ⟨wrapSmallResult env f, wrap_small env f h1 h2 h3, ?_, ?_⟩
  · intro i hi
    simp [LogBuffers.Buffer, wrapSmallResult, smallBuffers, hi]
  · simp [LogBuffers.Buffer, wrapSmallResult, smallBuffers, Fin.val_last]

/-- Claim C3, witness: the log file of length `3 * 65536 + 4096 = 200704`
from the spec's literal scenario, mapped at base 8192: three term buffers of
capacity 65536 at offsets 0, 65536, 131072 and a metadata buffer of capacity
4096 at offset 196608. -/
theorem C3_single_mapping_carves_witness :
    ∃ lb, Wrap envC3w = WrapResult.ok lb [⟨0, 0⟩] ∧
      (∀ i : Fin (PartitionCount + 1), (i : Nat) < PartitionCount →
        lb.Buffer i =
          AtomicBuffer.Wrap (fC3w.addr + ((i : Nat) : Int) * computeTermLength envC3w.fileSize)
            (computeTermLength envC3w.fileSize)) ∧
      lb.Buffer (Fin.last PartitionCount) =
        AtomicBuffer.Wrap (fC3w.addr + (envC3w.fileSize - logMetaDataLength)) logMetaDataLength :=
  C3_single_mapping_carves envC3w fC3w (by decide) rfl rfl

/-- Claim C4, counterexample: a log file of length `200705 = 3 * 65536 + 4096
+ 1` is accepted by `Wrap` (its truncated term length 65536 is a power of two
within bounds), yet `logLength ≠ PartitionCount * termLength +
logMetaDataLength` — refuting the claim that every file violating that
identity is rejected. -/
theorem C4_counterexample :
    (∃ lb calls, Wrap envC4x = WrapResult.ok lb calls) ∧
      envC4x.fileSize ≠
        (PartitionCount : Int) * computeTermLength envC4x.fileSize + logMetaDataLength :=
  ⟨⟨wrapSmallResult envC4x { addr := 8192, closeErr := none }, [⟨0, 0⟩], rfl⟩, by decide⟩

/-- Claim C4, amended: for every log file accepted by `Wrap`, the term length
used for the term views equals `(logLength - logMetaDataLength) /
PartitionCount` (truncating division) and is a power of two within the
allowed bounds; every file whose computed term length fails `checkTermLength`
is rejected (Wrap panics).  The exact-length identity `logLength =
PartitionCount * termLength + logMetaDataLength` is, however, not enforced:
division slack is silently accepted. -/
theorem C4_amended (env : MapEnv) :
    (∀ lb calls, Wrap env = WrapResult.ok lb calls →
      computeTermLength env.fileSize =
        (env.fileSize - logMetaDataLength).tdiv (PartitionCount : Int) ∧
      TermMinLength ≤ computeTermLength env.fileSize ∧
      computeTermLength env.fileSize ≤ TermMaxLength ∧
      isPowerOfTwo (computeTermLength env.fileSize) = true ∧
      (∀ i : Fin (PartitionCount + 1), (i : Nat) < PartitionCount →
        (lb.Buffer i).capacity = computeTermLength env.fileSize)) ∧
    (∀ e, checkTermLength (computeTermLength env.fileSize) = Except.error e →
      Wrap env = WrapResult.panic e []) := by
  constructor
  · intro lb calls h
    obtain ⟨f, hs, hc, hm, hcalls, hlb⟩ := wrap_ok_inversion env lb calls h
    obtain ⟨b1, b2, b3⟩ := checkTermLength_ok hc
    subst hlb
    refine ⟨rfl, b1, b2, b3, ?_⟩
    intro i hi
    simp [LogBuffers.Buffer, wrapSmallResult, smallBuffers, hi, AtomicBuffer.Wrap]
  · intro e hc
    exact wrap_check_error env e hc

/-- Claim C4, witness: the amended claim applied to the valid 200704-byte
file (accepted, term length 65536) and to an empty file (rejected by
`checkTermLength` with the minimum-size panic). -/
theorem C4_amended_witness :
    (computeTermLength envC4w.fileSize =
        (envC4w.fileSize - logMetaDataLength).tdiv (PartitionCount : Int) ∧
      TermMinLength ≤ computeTermLength envC4w.fileSize ∧
      computeTermLength envC4w.fileSize ≤ TermMaxLength ∧
      isPowerOfTwo (computeTermLength envC4w.fileSize) = true ∧
      (∀ i : Fin (PartitionCount + 1), (i : Nat) < PartitionCount →
        ((wrapSmallResult envC4w fC4w).Buffer i).capacity =
          computeTermLength envC4w.fileSize)) ∧
    Wrap envC4bad = WrapResult.panic ("Term length less than min size") [] :=
  ⟨(C4_amended envC4w).1 (wrapSmallResult envC4w fC4w) [⟨0, 0⟩] rfl,
   (C4_amended envC4bad).2 ("Term length less than min size") rfl⟩

/-- Claim C6: after `Close` returns, no mapping remains held (`mmapFiles` is
nil), and a second `Close` is idempotent: it unmaps nothing further and
returns nil. -/
theorem C6_close_idempotent (lb : LogBuffers)
    (h : ∀ x ∈ lb.mmapFiles, Option.isSome x = true) :
    ∃ err closed lb2, lb.Close = CloseResult.normal err lb2 closed ∧
      lb2.mmapFiles = [] ∧ lb2.Close = CloseResult.normal none lb2 [] := by
  obtain ⟨r, hr⟩ := closeLoop_all_some lb.mmapFiles none [] h
  refine ⟨r.1, r.2, { lb with mmapFiles := [] }, ?_, rfl, rfl⟩
  unfold LogBuffers.Close
  rw [hr]

/-- Claim C6, witness: a `LogBuffers` holding one mapped region (whose unmap
even fails): after `Close`, `mmapFiles` is empty and the second `Close`
closes nothing and returns nil. -/
theorem C6_close_idempotent_witness :
    ∃ err closed lb2, lbC6w.Close = CloseResult.normal err lb2 closed ∧
      lb2.mmapFiles = [] ∧ lb2.Close = CloseResult.normal none lb2 [] :=
  C6_close_idempotent lbC6w
    (by intro x hx; simp only [lbC6w, List.mem_singleton] at hx; subst hx; rfl)

/-- Claim C7: whenever a required memory mapping fails, `Wrap` is fatal — it
panics and never returns a `LogBuffers`; this holds in both the
single-mapping branch (where a whole-file mapping failure panics) and the
multi-mapping branch (which never reaches a successful return at all). -/
theorem C7_map_failure_fatal (env : MapEnv)
    (hfail : env.fileSize < maxSingleMappingSize →
      ∃ e, env.mapExisting 0 0 = Except.error e) :
    ∃ msg calls, Wrap env = WrapResult.panic msg calls := by
  by_cases hs : env.fileSize < maxSingleMappingSize
  · cases hc : checkTermLength (computeTermLength env.fileSize) with
    | error e => exact ⟨e, [], wrap_check_error env e hc⟩
    | ok u =>
      cases u
      obtain ⟨e, hm⟩ := hfail hs
      exact ⟨e, [⟨0, 0⟩], wrap_small_maperr env e hs hc hm⟩
  · exact wrap_big_panic env (le_of_not_lt hs)

/-- Claim C7, witness: a 200704-byte log file whose mapping fails with
ENOENT — `Wrap` panics. -/
theorem C7_map_failure_fatal_witness :
    ∃ msg calls, Wrap envC7w = WrapResult.panic msg calls :=
  C7_map_failure_fatal envC7w
    (fun _ => ⟨("open logbuffer file: no such file or directory"), rfl⟩)

/-- Claim C9: for every `LogBuffers` returned by `Wrap`, the overlay returned
by `Meta()` is wrapped at offset 0 over the very same metadata buffer
returned by `Buffer(PartitionCount)`. -/
theorem C9_meta_overlay (env : MapEnv) (lb : LogBuffers) (calls : List MapCall)
    (h : Wrap env = WrapResult.ok lb calls) :
    lb.Meta = LogBufferMetaData.Wrap (lb.Buffer (Fin.last PartitionCount)) 0 := by
  obtain ⟨f, hs, hc, hm, hcalls, hlb⟩ := wrap_ok_inversion env lb calls h
  subst hlb
  rfl

/-- Claim C9, witness: the 200704-byte log file mapped at base 32768. -/
theorem C9_meta_overlay_witness :
    (wrapSmallResult envC9w fC9w).Meta =
      LogBufferMetaData.Wrap ((wrapSmallResult envC9w fC9w).Buffer (Fin.last PartitionCount)) 0 :=
  C9_meta_overlay envC9w (wrapSmallResult envC9w fC9w) [⟨0, 0⟩] rfl

/-- Claim C10: every `LogBuffers` successfully returned by `Wrap` is fully
initialised — each of the `PartitionCount` term buffers has capacity
`termLength` (which is at least `TermMinLength`, hence nonzero) and the
metadata buffer has capacity `logMetaDataLength`; no failure path returns a
value. -/
theorem C10_wrap_fully_initialised (env : MapEnv) (lb : LogBuffers) (calls : List MapCall)
    (h : Wrap env = WrapResult.ok lb calls) :
    TermMinLength ≤ computeTermLength env.fileSize ∧
    (∀ i : Fin (PartitionCount + 1),
      (lb.Buffer i).capacity =
        if (i : Nat) < PartitionCount then computeTermLength env.fileSize
        else logMetaDataLength) := by
  obtain ⟨f, hs, hc, hm, hcalls, hlb⟩ := wrap_ok_inversion env lb calls h
  refine ⟨(checkTermLength_ok hc).1, ?_⟩
  subst hlb
  intro i
  by_cases hi : (i : Nat) < PartitionCount <;>
    simp [LogBuffers.Buffer, wrapSmallResult, smallBuffers, AtomicBuffer.Wrap, hi]

/-- Claim C10, witness: the 200704-byte log file mapped at base 65536. -/
theorem C10_wrap_fully_initialised_witness :
    TermMinLength ≤ computeTermLength envC10w.fileSize ∧
    (∀ i : Fin (PartitionCount + 1),
      ((wrapSmallResult envC10w fC10w).Buffer i).capacity =
        if (i : Nat) < PartitionCount then computeTermLength envC10w.fileSize
        else logMetaDataLength) :=
  C10_wrap_fully_initialised envC10w (wrapSmallResult envC10w fC10w) [⟨0, 0⟩] rfl

end logbuffer

namespace aeron

/-- Claim C5: the claim states that `Aeron.Close` releases the conductor and
then the CnC mapping even when the conductor's close fails, and returns the
first error encountered.  Evaluating the code with a failing conductor close
and a succeeding CnC close shows the CnC unmap is indeed still performed and
the conductor error reaches the error handler, but the returned value is
`nil` — `err` is overwritten by the CnC close result — not the first error. -/
theorem C5_close_returns_last_error :
    Close (some ("failed to close conductor")) none =
      (none, ["failed to close conductor"]) := rfl

/-- Claim C8, counterexample: the claim states the background goroutine polls
`Find*` "until a deadline".  Against a conductor whose registration never
resolves, the spin-poll loop never terminates: for no iteration bound does it
deliver (or stop) — there is no deadline in the code. -/
theorem C8_counterexample :
    ¬ ∃ fuel s idles,
      (Aeron.AddSubscription neverC8 ("aeron:udp?endpoint=localhost:40123") 1001 fuel).2 =
        PollOutcome.delivered s idles := by
  rintro ⟨fuel, s, idles, h⟩
  rw [show (Aeron.AddSubscription neverC8 ("aeron:udp?endpoint=localhost:40123") 1001 fuel).2 =
      addLoop (fun _ => (none : Option Nat)) fuel from rfl] at h
  rw [addLoop_none (fun _ => none) (fun _ => rfl) fuel] at h
  exact PollOutcome.noConfusion h

/-- Claim C8, amended: `Aeron.AddPublication` and `Aeron.AddSubscription`
return a channel without blocking on the driver, and a background goroutine
spin-polls `FindPublication` / `FindSubscription` — invoking the configured
idle strategy after each unsuccessful poll past the first — with **no
deadline**, delivering the resolved object on the channel once the pending
registration resolves (after `n` nil polls it delivers with `n - 1` idle
invocations). -/
theorem C8_amended {σ π : Type} (c : ConductorModel σ π) (channel : String) (streamID : Int)
    (fuel n m : Nat) (s : σ) (p : π)
    (hsn : c.findSubscription (c.addSubscription channel streamID) n = some s)
    (hsb : ∀ j, j < n → c.findSubscription (c.addSubscription channel streamID) j = none)
    (hpm : c.findPublication (c.addPublication channel streamID) m = some p)
    (hpb : ∀ j, j < m → c.findPublication (c.addPublication channel streamID) j = none)
    (hfs : n ≤ fuel) (hfp : m ≤ fuel) :
    (Aeron.AddSubscription c channel streamID fuel).2 = PollOutcome.delivered s (n - 1) ∧
    (Aeron.AddPublication c channel streamID fuel).2 = PollOutcome.delivered p (m - 1) :=
  ⟨addLoop_spec _ n s hsn hsb fuel hfs, addLoop_spec _ m p hpm hpb fuel hfp⟩

/-- Claim C8, witness: a conductor whose subscription resolves on the third
poll (one idle call: no idle between the first two polls) and whose
publication resolves immediately (no idle calls). -/
theorem C8_amended_witness :
    (Aeron.AddSubscription cC8w ("aeron:ipc") 10 2).2 = PollOutcome.delivered 77 1 ∧
    (Aeron.AddPublication cC8w ("aeron:ipc") 10 2).2 = PollOutcome.delivered 88 0 :=
  C8_amended cC8w ("aeron:ipc") 10 2 2 0 77 88 rfl (by decide) rfl (by decide)
    (by decide) (by decide)

end aeron
